import Mathlib

/-!
A shallow embedding of the MCP server core (`src/server/index.ts`): the
capability model, the handshake controller, the tool registry and the
resource registry, together with their request handlers, plus theorems
checking the specification's claims against this embedding.

JavaScript objects used as string-keyed dictionaries are modelled as
association lists in insertion order (`Object.entries` / `Object.values`
iterate string keys in insertion order). Promise-returning callbacks are
modelled by their outcome: `Except JsError α` (a rejection carries the
thrown JavaScript value). `async` request handlers that may `throw` are
modelled as `Except`-valued functions.
-/

namespace MCP

/-- A JSON-like value, standing in for the `unknown` values that flow
through tool arguments and validation. -/
inductive JsonValue where
  | null
  | str (s : String)
  | num (n : Int)
  | boolean (b : Bool)
  | arr (items : List JsonValue)
  | obj (fields : List (String × JsonValue))

/-- A value thrown by JavaScript code: either an `Error` instance carrying a
`message`, or any other value, observed through `String(error)`. -/
inductive JsError where
  | errorInstance (message : String)
  | nonErrorValue (stringForm : String)
deriving DecidableEq

/-- `error instanceof Error ? error.message : String(error)` from the
`tools/call` catch clause. -/
def JsError.toText : JsError → String
  | .errorInstance m => m
  | .nonErrorValue s => s

/-- Modelled from the spec: protocol error codes from the shared types module
(not under `src/`); only the "invalid params" condition is used by this core. -/
inductive ErrorCode where
  | invalidParams
  | internalError
deriving DecidableEq

/-- `McpError` as raised by the request handlers: a code and a message. -/
structure McpError where
  code : ErrorCode
  message : String
deriving DecidableEq

/-- How a request handler can fail: by throwing an `McpError` itself, or by
letting a callback's thrown value propagate uncaught. -/
inductive HandlerFault where
  | mcp (e : McpError)
  | js (e : JsError)
deriving DecidableEq

/-- A content item of a tool result (`{type: "text", text}` or other kinds). -/
inductive ContentItem where
  | text (text : String)
  | other (data : String)
deriving DecidableEq

/-- `CallToolResult`: content plus the optional `isError` flag. -/
structure CallToolResult where
  content : List ContentItem
  isError : Option Bool := none
deriving DecidableEq

/-- A field list of a JSON object, in property order; used for resource
listing entries and metadata, which the source combines by object spread. -/
abbrev Kvs := List (String × String)

/-- One entry of `ReadResourceResult.contents`. -/
structure ResourceContent where
  uri : String
  text : String
deriving DecidableEq

/-- `ReadResourceResult` returned by read callbacks. -/
structure ReadResourceResult where
  contents : List ResourceContent
deriving DecidableEq

/-- `ListResourcesResult` returned by template list callbacks: each resource
is a field list, so that object spread is observable. -/
structure ListResourcesResult where
  resources : List Kvs
deriving DecidableEq

/-- Variables extracted by a URI template match. -/
abbrev Variables := List (String × String)

/-- Modelled from the spec: the address-template engine (not under `src/`)
is consumed through `match(candidateAddress) -> variables|none` and a
rendering to its canonical string; a template value carries both. -/
structure UriTemplate where
  pattern : String
  matchUri : String → Option Variables

/-- Modelled from the spec: the schema-validation engine (not under `src/`)
is consumed through `validate(shape, value) -> typed value | error`; a zod
object schema value is modelled by its `safeParse` outcome (the structured
error observed via `error.message`). -/
structure Schema where
  safeParse : Option JsonValue → Except String JsonValue

/-- A tool callback. The source invokes `cb(args, extra)` when an input
schema is declared and `cb(extra)` otherwise; we model the two calling
conventions by an optional argument, and the promise by its outcome. -/
def ToolCallback := Option JsonValue → Except JsError CallToolResult

/-- A resource read callback: `(uri, variables?) => result`, modelled by
its outcome. -/
def ReadResourceCallback := String → Option Variables → Except JsError ReadResourceResult

/-- A template list callback `() => result`, modelled by the outcome of its
single invocation. -/
def ListResourcesCallback := Except JsError ListResourcesResult

/-- `RegisteredTool`. -/
structure RegisteredTool where
  description : Option String
  inputSchema : Option Schema
  callback : ToolCallback

/-- `RegisteredResource`. -/
structure RegisteredResource where
  name : String
  metadata : Option Kvs
  readCallback : ReadResourceCallback

/-- `RegisteredResourceTemplate`. -/
structure RegisteredResourceTemplate where
  uriTemplate : UriTemplate
  metadata : Option Kvs
  listCallback : Option ListResourcesCallback
  readCallback : ReadResourceCallback

/-- `ServerCapabilities`: the sparse feature flags this side declares. -/
structure ServerCapabilities where
  tools : Option Unit := none
  resources : Option Unit := none
  prompts : Option Unit := none
  logging : Option Unit := none
  sampling : Option Unit := none
deriving DecidableEq

/-- `ClientCapabilities`: the peer's declared features this core consults. -/
structure ClientCapabilities where
  sampling : Option Unit := none
  roots : Option Unit := none
deriving DecidableEq

/-- `Implementation`: a name/version identity descriptor. -/
structure Implementation where
  name : String
  version : String
deriving DecidableEq

/-- Which handler a request-handler map entry holds; each installer site of
the source is one tag. -/
inductive HandlerTag where
  | initializeH
  | toolsListH
  | toolsCallH
  | resourcesListH
  | resourcesTemplatesListH
  | resourcesReadH
deriving DecidableEq

/-- JavaScript string-keyed property read: first binding for the key. -/
def dictGet {α : Type} (k : String) : List (String × α) → Option α
  | [] => none
  | (k', v) :: rest => if k' == k then some v else dictGet k rest

/-- JavaScript property assignment: overwrite in place, else append. -/
def dictSet {α : Type} (k : String) (v : α) : List (String × α) → List (String × α)
  | [] => [(k, v)]
  | (k', v') :: rest =>
    if k' == k then (k', v) :: rest else (k', v') :: dictSet k v rest

/-- JavaScript object spread `\x7b...a, ...b\x7d`: `a`'s keys in order with
`b`'s values winning on conflict, then `b`'s remaining keys in order. -/
def spread (a b : Kvs) : Kvs :=
  (a.map fun kv => (kv.1, (dictGet kv.1 b).getD kv.2)) ++
    b.filter fun kv => (dictGet kv.1 a).isNone

/-- The `Server` state: its own and the recorded peer capability state, the
three registries, whether a transport is attached, and the request-handler
map of the underlying dispatch engine. -/
structure Server where
  serverInfo : Implementation
  capabilities : ServerCapabilities
  clientCapabilities : Option ClientCapabilities := none
  clientVersion : Option Implementation := none
  registeredTools : List (String × RegisteredTool) := []
  registeredResources : List (String × RegisteredResource) := []
  registeredResourceTemplates : List (String × RegisteredResourceTemplate) := []
  transport : Bool := false
  requestHandlers : List (String × HandlerTag) := []

/-- The constructor: capabilities from the options (default empty), and the
`initialize` request handler installed. -/
def mkServer (serverInfo : Implementation)
    (capabilities : ServerCapabilities := {}) : Server :=
  { serverInfo := serverInfo
    capabilities := capabilities
    requestHandlers := [("initialize", .initializeH)] }

/-- Modelled from the spec: merging two capability sets is a per-feature
union that must not silently drop a previously-declared feature (the shared
protocol module's `mergeCapabilities` is not under `src/`). -/
def mergeCapabilities (base additional : ServerCapabilities) : ServerCapabilities :=
  { tools := additional.tools.orElse fun _ => base.tools
    resources := additional.resources.orElse fun _ => base.resources
    prompts := additional.prompts.orElse fun _ => base.prompts
    logging := additional.logging.orElse fun _ => base.logging
    sampling := additional.sampling.orElse fun _ => base.sampling }

/-- `registerCapabilities`: refused once a transport is attached, otherwise
merge into the declared set. -/
def Server.registerCapabilities (st : Server) (capabilities : ServerCapabilities) :
    Except String Unit × Server :=
  if st.transport then
    (.error "Cannot register capabilities after connecting to transport", st)
  else
    (.ok (), { st with capabilities := mergeCapabilities st.capabilities capabilities })

/-- Modelled from the spec: the dispatch engine's guard (not under `src/`)
refuses registering a request handler for a method already owned by a
different installer; re-installation by the same installer is tolerated. -/
def Server.assertCanSetRequestHandler (st : Server) (method : String)
    (tag : HandlerTag) : Except String Unit :=
  match dictGet method st.requestHandlers with
  | none => .ok ()
  | some t =>
    if t = tag then .ok ()
    else .error s!"A request handler for {method} already exists"

/-- Modelled from the spec: the dispatch engine's
`registerRequestHandler(method, handler)` (not under `src/`) records the
handler for the method, replacing any previous one. -/
def Server.setRequestHandler (st : Server) (method : String) (tag : HandlerTag) : Server :=
  { st with requestHandlers := dictSet method tag st.requestHandlers }

/-- `assertCapabilityForMethod`: the guard on outbound requests, checking
the recorded peer capability set. -/
def Server.assertCapabilityForMethod (st : Server) (method : String) : Except String Unit :=
  match method with
  | "sampling/createMessage" =>
    if (st.clientCapabilities.bind ClientCapabilities.sampling).isSome then .ok ()
    else .error s!"Client does not support sampling (required for {method})"
  | "roots/list" =>
    if (st.clientCapabilities.bind ClientCapabilities.roots).isSome then .ok ()
    else .error s!"Client does not support listing roots (required for {method})"
  | _ => .ok ()

/-- `assertNotificationCapability`: the guard on outbound notifications,
checking this side's declared capability set. -/
def Server.assertNotificationCapability (st : Server) (method : String) : Except String Unit :=
  match method with
  | "notifications/message" =>
    if st.capabilities.logging.isSome then .ok ()
    else .error s!"Server does not support logging (required for {method})"
  | "notifications/resources/updated" =>
    if st.capabilities.resources.isSome then .ok ()
    else .error s!"Server does not support notifying about resources (required for {method})"
  | "notifications/resources/list_changed" =>
    if st.capabilities.resources.isSome then .ok ()
    else .error s!"Server does not support notifying about resources (required for {method})"
  | "notifications/tools/list_changed" =>
    if st.capabilities.tools.isSome then .ok ()
    else .error s!"Server does not support notifying of tool list changes (required for {method})"
  | "notifications/prompts/list_changed" =>
    if st.capabilities.prompts.isSome then .ok ()
    else .error s!"Server does not support notifying of prompt list changes (required for {method})"
  | _ => .ok ()

/-- Modelled from the spec: the dispatch engine's outbound request primitive
(not under `src/`) evaluates the capability guard at send time, before any
message is placed on the wire; the result is the guard failure or the list
of messages sent. -/
def Server.request (st : Server) (method : String) : Except String (List String) :=
  match st.assertCapabilityForMethod method with
  | .error e => .error e
  | .ok _ => .ok [method]

/-- Modelled from the spec: the dispatch engine's outbound notification
primitive (not under `src/`), guard first, then the send. -/
def Server.notificationSend (st : Server) (method : String) : Except String (List String) :=
  match st.assertNotificationCapability method with
  | .error e => .error e
  | .ok _ => .ok [method]

/-- `InitializeRequest.params`. -/
structure InitializeRequestParams where
  protocolVersion : String
  capabilities : ClientCapabilities
  clientInfo : Implementation
deriving DecidableEq

/-- `InitializeResult`. -/
structure InitializeResult where
  protocolVersion : String
  capabilities : ServerCapabilities
  serverInfo : Implementation
deriving DecidableEq

/-- `_oninitialize`: record the peer capability set and identity, and answer
with the negotiated version, this side's capabilities and identity. The
statically known supported set and latest version are imports from the
shared types module (not under `src/`) and enter as parameters. -/
def Server.oninitialize (supportedProtocolVersions : List String)
    (latestProtocolVersion : String) (st : Server)
    (request : InitializeRequestParams) : InitializeResult × Server :=
  let st' := { st with
    clientCapabilities := some request.capabilities
    clientVersion := some request.clientInfo }
  ({ protocolVersion :=
       if supportedProtocolVersions.contains request.protocolVersion then
         request.protocolVersion
       else latestProtocolVersion
     capabilities := st'.capabilities
     serverInfo := st'.serverInfo }, st')

/-- `CallToolRequest.params`. -/
structure CallToolRequestParams where
  name : String
  arguments : Option JsonValue

/-- The `tools/call` request handler installed by `setToolRequestHandlers`. -/
def Server.callToolHandler (st : Server) (request : CallToolRequestParams) :
    Except HandlerFault CallToolResult :=
  match dictGet request.name st.registeredTools with
  | none =>
    .error (.mcp ⟨.invalidParams, s!"Tool {request.name} not found"⟩)
  | some tool =>
    match tool.inputSchema with
    | some schema =>
      match schema.safeParse request.arguments with
      | .error msg =>
        .error (.mcp ⟨.invalidParams,
          s!"Invalid arguments for tool {request.name}: {msg}"⟩)
      | .ok args =>
        match tool.callback (some args) with
        | .ok result => .ok result
        | .error e => .ok { content := [.text e.toText], isError := some true }
    | none =>
      match tool.callback none with
      | .ok result => .ok result
      | .error e => .ok { content := [.text e.toText], isError := some true }

/-- `setToolRequestHandlers`: guard both methods, declare the `tools`
capability, then install the `tools/list` and `tools/call` handlers. -/
def Server.setToolRequestHandlers (st : Server) : Except String Unit × Server :=
  match st.assertCanSetRequestHandler "tools/list" .toolsListH with
  | .error e => (.error e, st)
  | .ok _ =>
    match st.assertCanSetRequestHandler "tools/call" .toolsCallH with
    | .error e => (.error e, st)
    | .ok _ =>
      match st.registerCapabilities { tools := some () } with
      | (.error e, st') => (.error e, st')
      | (.ok _, st') =>
        let st' := st'.setRequestHandler "tools/list" .toolsListH
        let st' := st'.setRequestHandler "tools/call" .toolsCallH
        (.ok (), st')

/-- `Server.tool` after overload resolution: refuse a duplicate name, insert
the new entry, then (re-)install the tool request handlers. The result is
the thrown configuration error, if any, together with the state as the
mutations left it. -/
def Server.tool (st : Server) (name : String) (description : Option String)
    (paramsSchema : Option Schema) (cb : ToolCallback) : Except String Unit × Server :=
  if (dictGet name st.registeredTools).isSome then
    (.error s!"Tool {name} is already registered", st)
  else
    let st := { st with
      registeredTools := dictSet name
        { description := description, inputSchema := paramsSchema, callback := cb }
        st.registeredTools }
    st.setToolRequestHandlers

/-- The `resources/read` template scan: first template, in registration
order, whose matcher yields variables. -/
def findMatchingTemplate (uri : String) :
    List (String × RegisteredResourceTemplate) →
      Option (RegisteredResourceTemplate × Variables)
  | [] => none
  | (_, template) :: rest =>
    match template.uriTemplate.matchUri uri with
    | some vars => some (template, vars)
    | none => findMatchingTemplate uri rest

/-- The `resources/read` request handler: exact fixed-resource match first,
then the template scan, otherwise an invalid-params error naming the
address. Read-callback faults are not caught. -/
def Server.readResourceHandler (st : Server) (uri : String) :
    Except HandlerFault ReadResourceResult :=
  match dictGet uri st.registeredResources with
  | some resource =>
    match resource.readCallback uri none with
    | .ok result => .ok result
    | .error e => .error (.js e)
  | none =>
    match findMatchingTemplate uri st.registeredResourceTemplates with
    | some (template, vars) =>
      match template.readCallback uri (some vars) with
      | .ok result => .ok result
      | .error e => .error (.js e)
    | none => .error (.mcp ⟨.invalidParams, s!"Resource {uri} not found"⟩)

/-- The template half of the `resources/list` handler: templates without a
list callback are skipped; each enumerated resource is spread together with
the template's metadata (metadata last, so it wins); a rejecting list
callback propagates. -/
def listTemplateResources :
    List (String × RegisteredResourceTemplate) → Except HandlerFault (List Kvs)
  | [] => .ok []
  | (_, template) :: rest =>
    match template.listCallback with
    | none => listTemplateResources rest
    | some lc =>
      match lc with
      | .error e => .error (.js e)
      | .ok result =>
        match listTemplateResources rest with
        | .error e => .error e
        | .ok tail =>
          .ok ((result.resources.map fun r => spread r (template.metadata.getD [])) ++ tail)

/-- The `resources/list` request handler: fixed resources as
`\x7buri, name, ...metadata\x7d`, then the template-enumerated resources. -/
def Server.listResourcesHandler (st : Server) : Except HandlerFault (List Kvs) :=
  let resources := st.registeredResources.map fun kv =>
    spread [("uri", kv.1), ("name", kv.2.name)] (kv.2.metadata.getD [])
  match listTemplateResources st.registeredResourceTemplates with
  | .error e => .error e
  | .ok templateResources => .ok (resources ++ templateResources)

/-- `setResourceRequestHandlers`: guard the three methods, declare the
`resources` capability, then install the three handlers. -/
def Server.setResourceRequestHandlers (st : Server) : Except String Unit × Server :=
  match st.assertCanSetRequestHandler "resources/list" .resourcesListH with
  | .error e => (.error e, st)
  | .ok _ =>
    match st.assertCanSetRequestHandler "resources/templates/list" .resourcesTemplatesListH with
    | .error e => (.error e, st)
    | .ok _ =>
      match st.assertCanSetRequestHandler "resources/read" .resourcesReadH with
      | .error e => (.error e, st)
      | .ok _ =>
        match st.registerCapabilities { resources := some () } with
        | (.error e, st') => (.error e, st')
        | (.ok _, st') =>
          let st' := st'.setRequestHandler "resources/list" .resourcesListH
          let st' := st'.setRequestHandler "resources/templates/list" .resourcesTemplatesListH
          let st' := st'.setRequestHandler "resources/read" .resourcesReadH
          (.ok (), st')

/-- `registerResource`: refuse a duplicate fixed address, insert, then
(re-)install the resource request handlers. -/
def Server.registerResource (st : Server) (name : String) (uri : String)
    (metadata : Option Kvs) (readCallback : ReadResourceCallback) :
    Except String Unit × Server :=
  if (dictGet uri st.registeredResources).isSome then
    (.error s!"Resource {uri} is already registered", st)
  else
    let st := { st with
      registeredResources := dictSet uri
        { name := name, metadata := metadata, readCallback := readCallback }
        st.registeredResources }
    st.setResourceRequestHandlers

/-- `registerResourceTemplate`: refuse a duplicate template name, insert,
then (re-)install the resource request handlers. -/
def Server.registerResourceTemplate (st : Server) (name : String)
    (uriTemplate : UriTemplate) (metadata : Option Kvs)
    (listCallback : Option ListResourcesCallback)
    (readCallback : ReadResourceCallback) : Except String Unit × Server :=
  if (dictGet name st.registeredResourceTemplates).isSome then
    (.error s!"Resource template {name} is already registered", st)
  else
    let st := { st with
      registeredResourceTemplates := dictSet name
        { uriTemplate := uriTemplate, metadata := metadata,
          listCallback := listCallback, readCallback := readCallback }
        st.registeredResourceTemplates }
    st.setResourceRequestHandlers

/-! ### Dictionary lemmas -/

theorem dictGet_nil {α : Type} (k : String) : dictGet (α := α) k [] = none := rfl

theorem dictGet_cons {α : Type} (k k' : String) (v : α) (l : List (String × α)) :
    dictGet k ((k', v) :: l) = if k' == k then some v else dictGet k l := rfl

theorem dictGet_dictSet_self {α : Type} (k : String) (v : α) (l : List (String × α)) :
    dictGet k (dictSet k v l) = some v := by
  induction l with
  | nil => simp [dictGet, dictSet]
  | cons hd tl ih =>
    obtain ⟨k', v'⟩ := hd
    by_cases h : k' = k
    · simp [dictGet, dictSet, h]
    · simp [dictGet, dictSet, h, ih]

theorem dictSet_of_get_some {α : Type} {k : String} {v : α} {l : List (String × α)}
    (h : dictGet k l = some v) : dictSet k v l = l := by
  induction l with
  | nil => simp [dictGet] at h
  | cons hd tl ih =>
    obtain ⟨k', v'⟩ := hd
    by_cases hk : k' = k
    · simp [dictGet, hk] at h
      simp [dictSet, hk, h]
    · simp [dictGet, hk] at h
      simp [dictSet, hk, ih h]

theorem dictSet_of_get_none {α : Type} {k : String} {l : List (String × α)} (v : α)
    (h : dictGet k l = none) : dictSet k v l = l ++ [(k, v)] := by
  induction l with
  | nil => simp [dictSet]
  | cons hd tl ih =>
    obtain ⟨k', v'⟩ := hd
    by_cases hk : k' = k
    · simp [dictGet, hk] at h
    · simp [dictGet, hk] at h
      simp [dictSet, hk, ih h]

theorem dictGet_append {α : Type} (k : String) (l₁ l₂ : List (String × α)) :
    dictGet k (l₁ ++ l₂) =
      match dictGet k l₁ with
      | some v => some v
      | none => dictGet k l₂ := by
  induction l₁ with
  | nil => simp [dictGet]
  | cons hd tl ih =>
    obtain ⟨k', v'⟩ := hd
    by_cases hk : k' = k
    · simp [dictGet, hk]
    · simp [dictGet, hk, ih]

/-! ### Concrete fixtures used by witness theorems -/

/-- A callback that always rejects with an `Error` whose message is
`"kaboom"`. -/
def boomCallback : ToolCallback := fun _ => .error (.errorInstance "kaboom")

/-- A callback answering a fixed text. -/
def okCallback : ToolCallback :=
  fun _ => .ok { content := [.text "hi"] }

/-- A schema accepting exactly string values and echoing them. -/
def stringSchema : Schema where
  safeParse := fun v =>
    match v with
    | some (.str s) => .ok (.str s)
    | _ => .error "Required"

/-- A server with one registered zero-argument tool whose callback throws. -/
def serverBoom : Server :=
  { serverInfo := ⟨"srv", "1.0"⟩
    capabilities := { tools := some () }
    registeredTools := [("boom", ⟨none, none, boomCallback⟩)]
    requestHandlers :=
      [("initialize", .initializeH), ("tools/list", .toolsListH),
       ("tools/call", .toolsCallH)] }

/-- A server with one schema-checked tool. -/
def serverEcho : Server :=
  { serverInfo := ⟨"srv", "1.0"⟩
    capabilities := { tools := some () }
    registeredTools := [("echo", ⟨some "echoes", some stringSchema, okCallback⟩)]
    requestHandlers :=
      [("initialize", .initializeH), ("tools/list", .toolsListH),
       ("tools/call", .toolsCallH)] }

/-- A read callback answering a fixed text at the requested address. -/
def greetingRead : ReadResourceCallback :=
  fun uri _ => .ok { contents := [⟨uri, "hello"⟩] }

/-- A read callback that always rejects. -/
def failingRead : ReadResourceCallback :=
  fun _ _ => .error (.errorInstance "read exploded")

/-- A template matcher recognising exactly `test://a`. -/
def greetTemplate : UriTemplate where
  pattern := "test://T"
  matchUri := fun uri => if uri == "test://a" then some [("x", "a")] else none

/-- The registered-template record used by the resource fixtures. -/
def demoTemplate : RegisteredResourceTemplate where
  uriTemplate := greetTemplate
  metadata := some [("kind", "demo")]
  listCallback := some (.ok
    { resources := [[("uri", "test://a"), ("name", "a"), ("kind", "orig")]] })
  readCallback := greetingRead

/-- A server with one fixed resource and one template. -/
def serverRes : Server :=
  { serverInfo := ⟨"srv", "1.0"⟩
    capabilities := { resources := some () }
    registeredResources := [("mem://greeting", ⟨"greeting", none, greetingRead⟩)]
    registeredResourceTemplates := [("tpl", demoTemplate)]
    requestHandlers :=
      [("initialize", .initializeH), ("resources/list", .resourcesListH),
       ("resources/templates/list", .resourcesTemplatesListH),
       ("resources/read", .resourcesReadH)] }

/-- The failing-template record used by the fault fixtures. -/
def failTemplate : RegisteredResourceTemplate where
  uriTemplate := greetTemplate
  metadata := none
  listCallback := none
  readCallback := failingRead

/-- A server whose fixed resource and template read callbacks both reject. -/
def serverResFail : Server :=
  { serverInfo := ⟨"srv", "1.0"⟩
    capabilities := { resources := some () }
    registeredResources := [("mem://bad", ⟨"bad", none, failingRead⟩)]
    registeredResourceTemplates := [("tplfail", failTemplate)]
    requestHandlers :=
      [("initialize", .initializeH), ("resources/list", .resourcesListH),
       ("resources/templates/list", .resourcesTemplatesListH),
       ("resources/read", .resourcesReadH)] }

/-! ### C2: tool-callback faults become successful isError results -/

/-- C2: for every registered tool whose callback rejects when invoked via
`tools/call` (after any declared input shape validated successfully), the
handler returns a successful response whose content is exactly one text
item holding the fault's message (or string form) with `isError` set; the
fault does not propagate. The callback is invoked with `none` when the tool
declares no input shape, and with the parsed arguments otherwise. -/
theorem callTool_callback_fault_is_marked_result
    (st : Server) (request : CallToolRequestParams) (tool : RegisteredTool)
    (f : JsError)
    (hreg : dictGet request.name st.registeredTools = some tool)
    (hfault :
      (tool.inputSchema = none ∧ tool.callback none = .error f) ∨
      (∃ schema args, tool.inputSchema = some schema ∧
        schema.safeParse request.arguments = .ok args ∧
        tool.callback (some args) = .error f)) :
    st.callToolHandler request =
      .ok { content := [.text f.toText], isError := some true } := by
  rcases hfault with ⟨hschema, hcb⟩ | ⟨schema, args, hschema, hparse, hcb⟩
  · simp only [Server.callToolHandler, hreg, hschema, hcb]
  · simp only [Server.callToolHandler, hreg, hschema, hparse, hcb]

/-- Witness for C2 at a concrete server and request. -/
theorem callTool_callback_fault_is_marked_result_witness :
    Server.callToolHandler serverBoom ⟨"boom", none⟩ =
      .ok { content := [.text "kaboom"], isError := some true } :=
  callTool_callback_fault_is_marked_result serverBoom ⟨"boom", none⟩
    ⟨none, none, boomCallback⟩ (.errorInstance "kaboom") rfl (Or.inl ⟨rfl, rfl⟩)

/-! ### C5: unknown tool and validation failure are protocol errors -/

/-- C5: a `tools/call` for an unregistered name fails with an invalid-params
error; with a declared input shape whose validation fails, the handler fails
with an invalid-params error carrying the validation detail and the callback
is never invoked (the callback is universally quantified and absent from the
conclusion); on successful validation the callback receives the parsed
arguments and its result is returned. -/
theorem callTool_validation_protocol_errors
    (st : Server) (request : CallToolRequestParams) :
    (dictGet request.name st.registeredTools = none →
      st.callToolHandler request =
        .error (.mcp ⟨.invalidParams, s!"Tool {request.name} not found"⟩)) ∧
    (∀ d schema cb msg,
      dictGet request.name st.registeredTools = some ⟨d, some schema, cb⟩ →
      schema.safeParse request.arguments = .error msg →
      st.callToolHandler request =
        .error (.mcp ⟨.invalidParams,
          s!"Invalid arguments for tool {request.name}: {msg}"⟩)) ∧
    (∀ d schema cb args result,
      dictGet request.name st.registeredTools = some ⟨d, some schema, cb⟩ →
      schema.safeParse request.arguments = .ok args →
      cb (some args) = .ok result →
      st.callToolHandler request = .ok result) := by
  refine ⟨fun hnone => ?_, fun d schema cb msg hreg hparse => ?_,
    fun d schema cb args result hreg hparse hcb => ?_⟩
  · simp only [Server.callToolHandler, hnone]
  · simp only [Server.callToolHandler, hreg, hparse]
  · simp only [Server.callToolHandler, hreg, hparse, hcb]

/-- Witness for C5: unknown tool, failing validation and successful
validation at concrete inputs. -/
theorem callTool_validation_protocol_errors_witness :
    (Server.callToolHandler serverEcho ⟨"nope", none⟩ =
      .error (.mcp ⟨.invalidParams, "Tool nope not found"⟩)) ∧
    (Server.callToolHandler serverEcho ⟨"echo", some (.num 3)⟩ =
      .error (.mcp ⟨.invalidParams, "Invalid arguments for tool echo: Required"⟩)) ∧
    (Server.callToolHandler serverEcho ⟨"echo", some (.str "hi")⟩ =
      .ok { content := [.text "hi"] }) :=
  ⟨(callTool_validation_protocol_errors serverEcho ⟨"nope", none⟩).1 rfl,
   (callTool_validation_protocol_errors serverEcho ⟨"echo", some (.num 3)⟩).2.1
     (some "echoes") stringSchema okCallback "Required" rfl rfl,
   (callTool_validation_protocol_errors serverEcho ⟨"echo", some (.str "hi")⟩).2.2
     (some "echoes") stringSchema okCallback (.str "hi") { content := [.text "hi"] }
     rfl rfl rfl⟩

/-! ### C8: duplicate registrations fail and leave the registry untouched -/

/-- C8: registering a tool name, fixed-resource address, or template name
that is already present fails with the synchronously raised configuration
error, and the server state — in particular the first registration's
entry — is returned unchanged. -/
theorem duplicate_registration_rejected (st : Server) :
    (∀ name t d s cb, dictGet name st.registeredTools = some t →
      Server.tool st name d s cb =
        (.error s!"Tool {name} is already registered", st)) ∧
    (∀ name uri r md rcb, dictGet uri st.registeredResources = some r →
      Server.registerResource st name uri md rcb =
        (.error s!"Resource {uri} is already registered", st)) ∧
    (∀ name t ut md lcb rcb, dictGet name st.registeredResourceTemplates = some t →
      Server.registerResourceTemplate st name ut md lcb rcb =
        (.error s!"Resource template {name} is already registered", st)) := by
  refine ⟨fun name t d s cb h => ?_, fun name uri r md rcb h => ?_,
    fun name t ut md lcb rcb h => ?_⟩
  · simp only [Server.tool, h, Option.isSome_some, if_true]
  · simp only [Server.registerResource, h, Option.isSome_some, if_true]
  · simp only [Server.registerResourceTemplate, h, Option.isSome_some, if_true]

/-- Witness for C8: re-registering `"boom"`, `mem://greeting` and the
template `"tpl"` on concrete servers that already hold them. -/
theorem duplicate_registration_rejected_witness :
    (Server.tool serverBoom "boom" none none okCallback =
      (.error "Tool boom is already registered", serverBoom)) ∧
    (Server.registerResource serverRes "other" "mem://greeting" none greetingRead =
      (.error "Resource mem://greeting is already registered", serverRes)) ∧
    (Server.registerResourceTemplate serverRes "tpl" greetTemplate none none greetingRead =
      (.error "Resource template tpl is already registered", serverRes)) :=
  ⟨(duplicate_registration_rejected serverBoom).1 "boom"
      ⟨none, none, boomCallback⟩ none none okCallback rfl,
   (duplicate_registration_rejected serverRes).2.1 "other" "mem://greeting"
      ⟨"greeting", none, greetingRead⟩ none greetingRead rfl,
   (duplicate_registration_rejected serverRes).2.2 "tpl" demoTemplate
      greetTemplate none none greetingRead rfl⟩

/-! ### Template-scan lemmas -/

theorem findMatchingTemplate_first (uri : String)
    (pre : List (String × RegisteredResourceTemplate)) (nm : String)
    (t : RegisteredResourceTemplate)
    (post : List (String × RegisteredResourceTemplate)) (vars : Variables)
    (hpre : ∀ p ∈ pre, p.2.uriTemplate.matchUri uri = none)
    (hmatch : t.uriTemplate.matchUri uri = some vars) :
    findMatchingTemplate uri (pre ++ (nm, t) :: post) = some (t, vars) := by
  induction pre with
  | nil => simp only [List.nil_append, findMatchingTemplate, hmatch]
  | cons hd tl ih =>
    have hhd := hpre hd (List.mem_cons_self hd tl)
    simp only [List.cons_append, findMatchingTemplate, hhd]
    exact ih fun p hp => hpre p (List.mem_cons_of_mem hd hp)

theorem findMatchingTemplate_none (uri : String)
    (ts : List (String × RegisteredResourceTemplate))
    (hall : ∀ p ∈ ts, p.2.uriTemplate.matchUri uri = none) :
    findMatchingTemplate uri ts = none := by
  induction ts with
  | nil => rfl
  | cons hd tl ih =>
    have hhd := hall hd (List.mem_cons_self hd tl)
    simp only [findMatchingTemplate, hhd]
    exact ih fun p hp => hall p (List.mem_cons_of_mem hd hp)

/-! ### C3: resources/read resolution order -/

/-- C3: a `resources/read` is served by the exactly matching fixed resource
if one exists; otherwise by the first template, in registration order, whose
matcher yields variables (a zero-variable match included, and later
templates never consulted — the templates after the first match are
arbitrary); and fails with an invalid-params error naming the address when
nothing matches. -/
theorem readResource_resolution_order (st : Server) (uri : String) :
    (∀ r result, dictGet uri st.registeredResources = some r →
      r.readCallback uri none = .ok result →
      st.readResourceHandler uri = .ok result) ∧
    (∀ pre nm t post vars result,
      dictGet uri st.registeredResources = none →
      st.registeredResourceTemplates = pre ++ (nm, t) :: post →
      (∀ p ∈ pre, p.2.uriTemplate.matchUri uri = none) →
      t.uriTemplate.matchUri uri = some vars →
      t.readCallback uri (some vars) = .ok result →
      st.readResourceHandler uri = .ok result) ∧
    (dictGet uri st.registeredResources = none →
      (∀ p ∈ st.registeredResourceTemplates, p.2.uriTemplate.matchUri uri = none) →
      st.readResourceHandler uri =
        .error (.mcp ⟨.invalidParams, s!"Resource {uri} not found"⟩)) := by
  refine ⟨fun r result hreg hread => ?_,
    fun pre nm t post vars result hnone hts hpre hmatch hread => ?_,
    fun hnone hall => ?_⟩
  · simp only [Server.readResourceHandler, hreg, hread]
  · simp only [Server.readResourceHandler, hnone, hts,
      findMatchingTemplate_first uri pre nm t post vars hpre hmatch, hread]
  · simp only [Server.readResourceHandler, hnone,
      findMatchingTemplate_none uri st.registeredResourceTemplates hall]

/-- Witness for C3: the fixed resource, the template match, and the
no-match error on a concrete server. -/
theorem readResource_resolution_order_witness :
    (Server.readResourceHandler serverRes "mem://greeting" =
      .ok { contents := [⟨"mem://greeting", "hello"⟩] }) ∧
    (Server.readResourceHandler serverRes "test://a" =
      .ok { contents := [⟨"test://a", "hello"⟩] }) ∧
    (Server.readResourceHandler serverRes "mem://other" =
      .error (.mcp ⟨.invalidParams, "Resource mem://other not found"⟩)) :=
  ⟨(readResource_resolution_order serverRes "mem://greeting").1
      ⟨"greeting", none, greetingRead⟩ _ rfl rfl,
   (readResource_resolution_order serverRes "test://a").2.1
      [] "tpl" demoTemplate [] [("x", "a")] _ rfl rfl (by intro p hp; cases hp) rfl rfl,
   (readResource_resolution_order serverRes "mem://other").2.2 rfl
      (by
        intro p hp
        simp only [serverRes, List.mem_singleton] at hp
        subst hp
        rfl)⟩

/-! ### C4: resource read-callback faults propagate -/

/-- C4: when a `resources/read` resolves to a fixed resource or to a
matching template and the read callback rejects, the fault propagates out of
the handler as a genuine failure — it is not converted into an
isError-marked result as on the `tools/call` path. -/
theorem readResource_fault_propagates (st : Server) (uri : String) :
    (∀ r f, dictGet uri st.registeredResources = some r →
      r.readCallback uri none = .error f →
      st.readResourceHandler uri = .error (.js f)) ∧
    (∀ pre nm t post vars f,
      dictGet uri st.registeredResources = none →
      st.registeredResourceTemplates = pre ++ (nm, t) :: post →
      (∀ p ∈ pre, p.2.uriTemplate.matchUri uri = none) →
      t.uriTemplate.matchUri uri = some vars →
      t.readCallback uri (some vars) = .error f →
      st.readResourceHandler uri = .error (.js f)) := by
  refine ⟨fun r f hreg hread => ?_,
    fun pre nm t post vars f hnone hts hpre hmatch hread => ?_⟩
  · simp only [Server.readResourceHandler, hreg, hread]
  · simp only [Server.readResourceHandler, hnone, hts,
      findMatchingTemplate_first uri pre nm t post vars hpre hmatch, hread]

/-- Witness for C4: both the fixed-resource path and the template path of
a concrete server propagate the rejection. -/
theorem readResource_fault_propagates_witness :
    (Server.readResourceHandler serverResFail "mem://bad" =
      .error (.js (.errorInstance "read exploded"))) ∧
    (Server.readResourceHandler serverResFail "test://a" =
      .error (.js (.errorInstance "read exploded"))) :=
  ⟨(readResource_fault_propagates serverResFail "mem://bad").1
      ⟨"bad", none, failingRead⟩ (.errorInstance "read exploded") rfl rfl,
   (readResource_fault_propagates serverResFail "test://a").2
      [] "tplfail" failTemplate [] [("x", "a")] (.errorInstance "read exploded")
      rfl rfl (by intro p hp; cases hp) rfl rfl⟩

/-! ### Spread lemmas -/

theorem dictGet_map_override (k : String) (b : Kvs) :
    ∀ (a : Kvs),
      dictGet k (a.map fun kv => (kv.1, (dictGet kv.1 b).getD kv.2)) =
        (dictGet k a).map fun v => (dictGet k b).getD v
  | [] => rfl
  | (k', v') :: tl => by
    by_cases hk : k' = k
    · simp [dictGet, hk]
    · simp [dictGet, hk, dictGet_map_override k b tl]

theorem dictGet_filter_fresh (k : String) (a : Kvs) (ha : dictGet k a = none) :
    ∀ (b : Kvs),
      dictGet k (b.filter fun kv => (dictGet kv.1 a).isNone) = dictGet k b
  | [] => rfl
  | (k', v') :: tl => by
    by_cases hk : k' = k
    · subst hk
      simp [List.filter, ha, dictGet]
    · by_cases hkeep : (dictGet k' a).isNone
      · simp [List.filter, hkeep, dictGet, hk, dictGet_filter_fresh k a ha tl]
      · simp [List.filter, hkeep, dictGet, hk, dictGet_filter_fresh k a ha tl]

/-- Fields present in `b` win in the spread `\x7b...a, ...b\x7d`. -/
theorem dictGet_spread_right (a b : Kvs) (k : String)
    (h : (dictGet k b).isSome) : dictGet k (spread a b) = dictGet k b := by
  unfold spread
  rw [dictGet_append, dictGet_map_override]
  cases hka : dictGet k a with
  | some v =>
    obtain ⟨w, hw⟩ := Option.isSome_iff_exists.mp h
    simp [hw]
  | none => simp [dictGet_filter_fresh k a hka b]

/-! ### C6: the resources/list view -/

theorem listTemplateResources_ok
    (ts : List (String × RegisteredResourceTemplate))
    (h : ∀ p ∈ ts, ∀ lc, p.2.listCallback = some lc → ∃ rs, lc = .ok rs) :
    listTemplateResources ts = .ok
      ((ts.map fun p =>
        match p.2.listCallback with
        | some (.ok rs) => rs.resources.map fun r => spread r (p.2.metadata.getD [])
        | _ => ([] : List Kvs)).flatten) := by
  induction ts with
  | nil => rfl
  | cons hd tl ih =>
    have ihtl := ih fun p hp => h p (List.mem_cons_of_mem hd hp)
    cases hlc : hd.2.listCallback with
    | none =>
      obtain ⟨nm, t⟩ := hd
      simp only at hlc
      simp [listTemplateResources, hlc, ihtl]
    | some lc =>
      obtain ⟨rs, hrs⟩ := h hd (List.mem_cons_self hd tl) lc hlc
      subst hrs
      obtain ⟨nm, t⟩ := hd
      simp only at hlc
      simp [listTemplateResources, hlc, ihtl]

/-- C6: the `resources/list` result is all fixed resources rendered as
`\x7buri, name, ...metadata\x7d`, concatenated with, per template that
declares a (successful) list callback, its enumerated resources each spread
with the template's metadata; templates without a list callback contribute
nothing; and a field present in the template metadata overrides any
same-named field of the enumerated entry. -/
theorem listResources_view (st : Server)
    (h : ∀ p ∈ st.registeredResourceTemplates, ∀ lc,
      p.2.listCallback = some lc → ∃ rs, lc = .ok rs) :
    st.listResourcesHandler = .ok
      ((st.registeredResources.map fun kv =>
          spread [("uri", kv.1), ("name", kv.2.name)] (kv.2.metadata.getD [])) ++
        (st.registeredResourceTemplates.map fun p =>
          match p.2.listCallback with
          | some (.ok rs) => rs.resources.map fun r => spread r (p.2.metadata.getD [])
          | _ => ([] : List Kvs)).flatten) ∧
    (∀ a b k, (dictGet k b).isSome → dictGet k (spread a b) = dictGet k b) := by
  refine ⟨?_, fun a b k hk => dictGet_spread_right a b k hk⟩
  simp only [Server.listResourcesHandler, listTemplateResources_ok _ h]

/-- Witness for C6 on a concrete server: the fixed `mem://greeting` entry,
then the template-enumerated `test://a` entry whose `kind` field is
overridden by the template metadata. -/
theorem listResources_view_witness :
    Server.listResourcesHandler serverRes = .ok
      [[("uri", "mem://greeting"), ("name", "greeting")],
       [("uri", "test://a"), ("name", "a"), ("kind", "demo")]] :=
  (listResources_view serverRes (by
    intro p hp lc hlc
    simp only [serverRes, List.mem_singleton] at hp
    subst hp
    exact ⟨_, (Option.some.inj hlc).symm⟩)).1

/-! ### C7: handshake version negotiation and peer recording -/

/-- C7: the handshake answers the requested protocol version when it is in
the statically known supported set and the latest supported version
otherwise, never an error (the negotiation is a total function); the result
carries this side's capability set and identity, and the peer's capability
set and identity are recorded, overwriting any prior value. -/
theorem handshake_negotiation (supported : List String) (latest : String)
    (st : Server) (request : InitializeRequestParams) :
    (supported.contains request.protocolVersion = true →
      (Server.oninitialize supported latest st request).1.protocolVersion =
        request.protocolVersion) ∧
    (supported.contains request.protocolVersion = false →
      (Server.oninitialize supported latest st request).1.protocolVersion = latest) ∧
    (Server.oninitialize supported latest st request).1.capabilities = st.capabilities ∧
    (Server.oninitialize supported latest st request).1.serverInfo = st.serverInfo ∧
    (Server.oninitialize supported latest st request).2.clientCapabilities =
      some request.capabilities ∧
    (Server.oninitialize supported latest st request).2.clientVersion =
      some request.clientInfo := by
  refine ⟨fun h => ?_, fun h => ?_, rfl, rfl, rfl, rfl⟩
  · show (if supported.contains request.protocolVersion = true then
      request.protocolVersion else latest) = request.protocolVersion
    rw [if_pos h]
  · show (if supported.contains request.protocolVersion = true then
      request.protocolVersion else latest) = latest
    rw [if_neg (by rw [h]; exact Bool.false_ne_true)]

/-- Witness for C7: a supported and an unsupported requested version
against a concrete server that already recorded a peer. -/
theorem handshake_negotiation_witness :
    (Server.oninitialize ["V1", "V2"] "V2"
        (mkServer ⟨"srv", "1.0"⟩) ⟨"V1", ⟨some (), none⟩, ⟨"cli", "3"⟩⟩).1.protocolVersion
      = "V1" ∧
    (Server.oninitialize ["V1", "V2"] "V2"
        (mkServer ⟨"srv", "1.0"⟩) ⟨"V0", ⟨some (), none⟩, ⟨"cli", "3"⟩⟩).1.protocolVersion
      = "V2" ∧
    (Server.oninitialize ["V1", "V2"] "V2"
        { mkServer ⟨"srv", "1.0"⟩ with clientCapabilities := some ⟨none, none⟩ }
        ⟨"V1", ⟨some (), none⟩, ⟨"cli", "3"⟩⟩).2.clientCapabilities
      = some ⟨some (), none⟩ :=
  ⟨(handshake_negotiation ["V1", "V2"] "V2" (mkServer ⟨"srv", "1.0"⟩)
      ⟨"V1", ⟨some (), none⟩, ⟨"cli", "3"⟩⟩).1 (by decide),
   (handshake_negotiation ["V1", "V2"] "V2" (mkServer ⟨"srv", "1.0"⟩)
      ⟨"V0", ⟨some (), none⟩, ⟨"cli", "3"⟩⟩).2.1 (by decide),
   (handshake_negotiation ["V1", "V2"] "V2"
      { mkServer ⟨"srv", "1.0"⟩ with clientCapabilities := some ⟨none, none⟩ }
      ⟨"V1", ⟨some (), none⟩, ⟨"cli", "3"⟩⟩).2.2.2.2.1⟩

/-! ### C9: send-time capability guards -/

/-- C9: sending `sampling/createMessage` without the peer declaring
`sampling`, or `roots/list` without `roots`, fails with the raised guard
error and nothing is sent; the gated notifications fail likewise against
this side's own declared capabilities; `ping`, `notifications/cancelled`
and `notifications/progress` require no capability. -/
theorem outbound_capability_guards (st : Server) :
    (st.clientCapabilities.bind ClientCapabilities.sampling = none →
      st.request "sampling/createMessage" =
        .error "Client does not support sampling (required for sampling/createMessage)") ∧
    (st.clientCapabilities.bind ClientCapabilities.roots = none →
      st.request "roots/list" =
        .error "Client does not support listing roots (required for roots/list)") ∧
    st.request "ping" = .ok ["ping"] ∧
    (st.capabilities.logging = none →
      st.notificationSend "notifications/message" =
        .error "Server does not support logging (required for notifications/message)") ∧
    (st.capabilities.resources = none →
      st.notificationSend "notifications/resources/updated" =
        .error "Server does not support notifying about resources (required for notifications/resources/updated)" ∧
      st.notificationSend "notifications/resources/list_changed" =
        .error "Server does not support notifying about resources (required for notifications/resources/list_changed)") ∧
    (st.capabilities.tools = none →
      st.notificationSend "notifications/tools/list_changed" =
        .error "Server does not support notifying of tool list changes (required for notifications/tools/list_changed)") ∧
    (st.capabilities.prompts = none →
      st.notificationSend "notifications/prompts/list_changed" =
        .error "Server does not support notifying of prompt list changes (required for notifications/prompts/list_changed)") ∧
    st.notificationSend "notifications/cancelled" = .ok ["notifications/cancelled"] ∧
    st.notificationSend "notifications/progress" = .ok ["notifications/progress"] := by
  refine ⟨fun h => ?_, fun h => ?_, rfl, fun h => ?_, fun h => ⟨?_, ?_⟩,
    fun h => ?_, fun h => ?_, rfl, rfl⟩
  all_goals
    simp only [Server.request, Server.notificationSend,
      Server.assertCapabilityForMethod, Server.assertNotificationCapability,
      h, Option.isSome_none, Bool.false_eq_true, if_false]
  all_goals rfl

/-- A freshly constructed server with no declared capabilities and no
recorded peer. -/
def serverBare : Server := mkServer ⟨"srv", "1.0"⟩

/-- Witness for C9 on the bare server: every gated send fails with the
guard error, the ungated ones go out. -/
theorem outbound_capability_guards_witness :
    Server.request serverBare "sampling/createMessage" =
      .error "Client does not support sampling (required for sampling/createMessage)" ∧
    Server.request serverBare "roots/list" =
      .error "Client does not support listing roots (required for roots/list)" ∧
    Server.request serverBare "ping" = .ok ["ping"] ∧
    Server.notificationSend serverBare "notifications/message" =
      .error "Server does not support logging (required for notifications/message)" ∧
    Server.notificationSend serverBare "notifications/resources/updated" =
      .error "Server does not support notifying about resources (required for notifications/resources/updated)" ∧
    Server.notificationSend serverBare "notifications/cancelled" =
      .ok ["notifications/cancelled"] :=
  ⟨(outbound_capability_guards serverBare).1 rfl,
   (outbound_capability_guards serverBare).2.1 rfl,
   (outbound_capability_guards serverBare).2.2.1,
   (outbound_capability_guards serverBare).2.2.2.1 rfl,
   ((outbound_capability_guards serverBare).2.2.2.2.1 rfl).1,
   (outbound_capability_guards serverBare).2.2.2.2.2.2.2.1⟩

/-! ### Handler-installation preservation lemmas -/

theorem dictGet_dictSet_ne {α : Type} {k k' : String} (hk : k' ≠ k) (v : α)
    (l : List (String × α)) : dictGet k (dictSet k' v l) = dictGet k l := by
  induction l with
  | nil => simp [dictGet, dictSet, hk]
  | cons hd tl ih =>
    obtain ⟨k₀, v₀⟩ := hd
    by_cases h₀ : k₀ = k'
    · subst h₀
      simp [dictGet, dictSet, hk]
    · simp [dictGet, dictSet, h₀, ih]

theorem setToolRequestHandlers_registeredTools (st : Server) :
    (st.setToolRequestHandlers).2.registeredTools = st.registeredTools := by
  unfold Server.setToolRequestHandlers
  cases st.assertCanSetRequestHandler "tools/list" .toolsListH with
  | error e => rfl
  | ok _ =>
    cases st.assertCanSetRequestHandler "tools/call" .toolsCallH with
    | error e => rfl
    | ok _ =>
      by_cases ht : st.transport <;>
        simp [Server.registerCapabilities, ht, Server.setRequestHandler]

theorem setResourceRequestHandlers_registries (st : Server) :
    (st.setResourceRequestHandlers).2.registeredResources = st.registeredResources ∧
    (st.setResourceRequestHandlers).2.registeredResourceTemplates =
      st.registeredResourceTemplates := by
  unfold Server.setResourceRequestHandlers
  cases st.assertCanSetRequestHandler "resources/list" .resourcesListH with
  | error e => exact ⟨rfl, rfl⟩
  | ok _ =>
    cases st.assertCanSetRequestHandler "resources/templates/list" .resourcesTemplatesListH with
    | error e => exact ⟨rfl, rfl⟩
    | ok _ =>
      cases st.assertCanSetRequestHandler "resources/read" .resourcesReadH with
      | error e => exact ⟨rfl, rfl⟩
      | ok _ =>
        by_cases ht : st.transport <;>
          simp [Server.registerCapabilities, ht, Server.setRequestHandler]

/-! ### C10: a failed registration still leaves the new entry behind -/

/-- C10: on a registration with a fresh key, the new entry is inserted
before handler installation is attempted, so the entry is present in the
resulting registry whatever the installation step returned; and when a
transport is already attached (with the handler guards themselves passing),
the registration call fails with the capability-registration error — yet by
the first part the entry remains: registration is not atomic. The same
holds for fixed resources and resource templates. -/
theorem registration_not_atomic (st : Server) :
    (∀ name d s cb, dictGet name st.registeredTools = none →
      (Server.tool st name d s cb).2.registeredTools =
        st.registeredTools ++ [(name, ⟨d, s, cb⟩)] ∧
      (st.transport = true →
        st.assertCanSetRequestHandler "tools/list" .toolsListH = .ok () →
        st.assertCanSetRequestHandler "tools/call" .toolsCallH = .ok () →
        (Server.tool st name d s cb).1 =
          .error "Cannot register capabilities after connecting to transport")) ∧
    (∀ name uri md rcb, dictGet uri st.registeredResources = none →
      (Server.registerResource st name uri md rcb).2.registeredResources =
        st.registeredResources ++ [(uri, ⟨name, md, rcb⟩)] ∧
      (st.transport = true →
        st.assertCanSetRequestHandler "resources/list" .resourcesListH = .ok () →
        st.assertCanSetRequestHandler "resources/templates/list" .resourcesTemplatesListH = .ok () →
        st.assertCanSetRequestHandler "resources/read" .resourcesReadH = .ok () →
        (Server.registerResource st name uri md rcb).1 =
          .error "Cannot register capabilities after connecting to transport")) ∧
    (∀ name ut md lcb rcb, dictGet name st.registeredResourceTemplates = none →
      (Server.registerResourceTemplate st name ut md lcb rcb).2.registeredResourceTemplates =
        st.registeredResourceTemplates ++ [(name, ⟨ut, md, lcb, rcb⟩)] ∧
      (st.transport = true →
        st.assertCanSetRequestHandler "resources/list" .resourcesListH = .ok () →
        st.assertCanSetRequestHandler "resources/templates/list" .resourcesTemplatesListH = .ok () →
        st.assertCanSetRequestHandler "resources/read" .resourcesReadH = .ok () →
        (Server.registerResourceTemplate st name ut md lcb rcb).1 =
          .error "Cannot register capabilities after connecting to transport")) := by
  refine ⟨fun name d s cb hfresh => ⟨?_, fun ht h1 h2 => ?_⟩,
    fun name uri md rcb hfresh => ⟨?_, fun ht h1 h2 h3 => ?_⟩,
    fun name ut md lcb rcb hfresh => ⟨?_, fun ht h1 h2 h3 => ?_⟩⟩
  · simp only [Server.tool, hfresh, Option.isSome_none, Bool.false_eq_true,
      if_false, setToolRequestHandlers_registeredTools]
    exact dictSet_of_get_none _ hfresh
  · simp only [Server.tool, hfresh, Option.isSome_none, Bool.false_eq_true, if_false]
    have h1' : Server.assertCanSetRequestHandler
        { st with registeredTools := dictSet name ⟨d, s, cb⟩ st.registeredTools }
        "tools/list" .toolsListH = .ok () := h1
    have h2' : Server.assertCanSetRequestHandler
        { st with registeredTools := dictSet name ⟨d, s, cb⟩ st.registeredTools }
        "tools/call" .toolsCallH = .ok () := h2
    simp only [Server.setToolRequestHandlers, h1', h2']
    simp only [Server.registerCapabilities, ht, if_true]
  · simp only [Server.registerResource, hfresh, Option.isSome_none,
      Bool.false_eq_true, if_false, (setResourceRequestHandlers_registries _).1]
    exact dictSet_of_get_none _ hfresh
  · simp only [Server.registerResource, hfresh, Option.isSome_none,
      Bool.false_eq_true, if_false]
    have h1' : Server.assertCanSetRequestHandler
        { st with registeredResources := dictSet uri ⟨name, md, rcb⟩ st.registeredResources }
        "resources/list" .resourcesListH = .ok () := h1
    have h2' : Server.assertCanSetRequestHandler
        { st with registeredResources := dictSet uri ⟨name, md, rcb⟩ st.registeredResources }
        "resources/templates/list" .resourcesTemplatesListH = .ok () := h2
    have h3' : Server.assertCanSetRequestHandler
        { st with registeredResources := dictSet uri ⟨name, md, rcb⟩ st.registeredResources }
        "resources/read" .resourcesReadH = .ok () := h3
    simp only [Server.setResourceRequestHandlers, h1', h2', h3']
    simp only [Server.registerCapabilities, ht, if_true]
  · simp only [Server.registerResourceTemplate, hfresh, Option.isSome_none,
      Bool.false_eq_true, if_false, (setResourceRequestHandlers_registries _).2]
    exact dictSet_of_get_none _ hfresh
  · simp only [Server.registerResourceTemplate, hfresh, Option.isSome_none,
      Bool.false_eq_true, if_false]
    have h1' : Server.assertCanSetRequestHandler
        { st with registeredResourceTemplates := dictSet name ⟨ut, md, lcb, rcb⟩ st.registeredResourceTemplates }
        "resources/list" .resourcesListH = .ok () := h1
    have h2' : Server.assertCanSetRequestHandler
        { st with registeredResourceTemplates := dictSet name ⟨ut, md, lcb, rcb⟩ st.registeredResourceTemplates }
        "resources/templates/list" .resourcesTemplatesListH = .ok () := h2
    have h3' : Server.assertCanSetRequestHandler
        { st with registeredResourceTemplates := dictSet name ⟨ut, md, lcb, rcb⟩ st.registeredResourceTemplates }
        "resources/read" .resourcesReadH = .ok () := h3
    simp only [Server.setResourceRequestHandlers, h1', h2', h3']
    simp only [Server.registerCapabilities, ht, if_true]

/-- A bare server that already has a transport attached. -/
def serverAttached : Server := { mkServer ⟨"srv", "1.0"⟩ with transport := true }

/-- Witness for C10: with a transport attached, registering a fresh tool
fails with the capability-registration error, yet the entry is in the
registry afterwards. -/
theorem registration_not_atomic_witness :
    (Server.tool serverAttached "t" none none okCallback).2.registeredTools =
      [("t", ⟨none, none, okCallback⟩)] ∧
    (Server.tool serverAttached "t" none none okCallback).1 =
      .error "Cannot register capabilities after connecting to transport" ∧
    (Server.registerResource serverAttached "r" "mem://r" none greetingRead).2.registeredResources =
      [("mem://r", ⟨"r", none, greetingRead⟩)] ∧
    (Server.registerResource serverAttached "r" "mem://r" none greetingRead).1 =
      .error "Cannot register capabilities after connecting to transport" :=
  ⟨((registration_not_atomic serverAttached).1 "t" none none okCallback rfl).1,
   ((registration_not_atomic serverAttached).1 "t" none none okCallback rfl).2
     rfl rfl rfl,
   ((registration_not_atomic serverAttached).2.1 "r" "mem://r" none greetingRead rfl).1,
   ((registration_not_atomic serverAttached).2.1 "r" "mem://r" none greetingRead rfl).2
     rfl rfl rfl rfl⟩

/-! ### C1: lazy, idempotent handler installation -/

/-- The tools/list and tools/call slots of the handler map are free or
already owned by this registry. -/
def toolsCompat (st : Server) : Prop :=
  (dictGet "tools/list" st.requestHandlers = none ∨
    dictGet "tools/list" st.requestHandlers = some .toolsListH) ∧
  (dictGet "tools/call" st.requestHandlers = none ∨
    dictGet "tools/call" st.requestHandlers = some .toolsCallH)

/-- The tool registry's handlers are installed and its capability declared. -/
def toolsInstalled (st : Server) : Prop :=
  dictGet "tools/list" st.requestHandlers = some .toolsListH ∧
  dictGet "tools/call" st.requestHandlers = some .toolsCallH ∧
  st.capabilities.tools = some ()

/-- The three resource method slots are free or already owned by this
registry. -/
def resourcesCompat (st : Server) : Prop :=
  (dictGet "resources/list" st.requestHandlers = none ∨
    dictGet "resources/list" st.requestHandlers = some .resourcesListH) ∧
  (dictGet "resources/templates/list" st.requestHandlers = none ∨
    dictGet "resources/templates/list" st.requestHandlers = some .resourcesTemplatesListH) ∧
  (dictGet "resources/read" st.requestHandlers = none ∨
    dictGet "resources/read" st.requestHandlers = some .resourcesReadH)

/-- The resource registry's handlers are installed and its capability
declared. -/
def resourcesInstalled (st : Server) : Prop :=
  dictGet "resources/list" st.requestHandlers = some .resourcesListH ∧
  dictGet "resources/templates/list" st.requestHandlers = some .resourcesTemplatesListH ∧
  dictGet "resources/read" st.requestHandlers = some .resourcesReadH ∧
  st.capabilities.resources = some ()

/-- The arguments of one `Server.tool` registration call. -/
structure ToolReg where
  name : String
  description : Option String
  paramsSchema : Option Schema
  callback : ToolCallback

/-- The registry entry a registration creates. -/
def ToolReg.entry (r : ToolReg) : RegisteredTool :=
  ⟨r.description, r.paramsSchema, r.callback⟩

/-- Perform a sequence of `Server.tool` calls, collecting each call's
outcome. -/
def registerToolsSeq : Server → List ToolReg → List (Except String Unit) × Server
  | st, [] => ([], st)
  | st, r :: rs =>
    let out := Server.tool st r.name r.description r.paramsSchema r.callback
    let rest := registerToolsSeq out.2 rs
    (out.1 :: rest.1, rest.2)

/-- The arguments of one resource-kind registration call: a fixed resource
or a resource template. -/
inductive ResourceReg where
  | fixed (name uri : String) (metadata : Option Kvs)
      (readCallback : ReadResourceCallback)
  | template (name : String) (uriTemplate : UriTemplate) (metadata : Option Kvs)
      (listCallback : Option ListResourcesCallback)
      (readCallback : ReadResourceCallback)

/-- The registry key a resource-kind registration occupies: fixed resources
are keyed by address, templates by name, in separate maps. -/
def ResourceReg.key : ResourceReg → Nat × String
  | .fixed _ uri _ _ => (0, uri)
  | .template name _ _ _ _ => (1, name)

/-- The registration's key is absent from its registry. -/
def ResourceReg.freshIn (r : ResourceReg) (st : Server) : Prop :=
  match r with
  | .fixed _ uri _ _ => dictGet uri st.registeredResources = none
  | .template name _ _ _ _ => dictGet name st.registeredResourceTemplates = none

/-- The fixed-resource entry a registration creates, if it is one. -/
def ResourceReg.fixedEntry? : ResourceReg → Option (String × RegisteredResource)
  | .fixed name uri md rcb => some (uri, ⟨name, md, rcb⟩)
  | .template _ _ _ _ _ => none

/-- The template entry a registration creates, if it is one. -/
def ResourceReg.templateEntry? : ResourceReg → Option (String × RegisteredResourceTemplate)
  | .fixed _ _ _ _ => none
  | .template name ut md lcb rcb => some (name, ⟨ut, md, lcb, rcb⟩)

/-- Dispatch one resource-kind registration. -/
def applyResourceReg (st : Server) : ResourceReg → Except String Unit × Server
  | .fixed name uri md rcb => st.registerResource name uri md rcb
  | .template name ut md lcb rcb => st.registerResourceTemplate name ut md lcb rcb

/-- Perform a sequence of resource-kind registrations. -/
def registerResourcesSeq : Server → List ResourceReg → List (Except String Unit) × Server
  | st, [] => ([], st)
  | st, r :: rs =>
    let out := applyResourceReg st r
    let rest := registerResourcesSeq out.2 rs
    (out.1 :: rest.1, rest.2)

theorem mergeCapabilities_toolsDecl (c : ServerCapabilities) :
    mergeCapabilities c { tools := some () } = { c with tools := some () } := rfl

theorem mergeCapabilities_resourcesDecl (c : ServerCapabilities) :
    mergeCapabilities c { resources := some () } = { c with resources := some () } := rfl

/-- One successful `Server.tool` step, in full: the entry is appended, the
`tools` capability merged in, and the two handlers (re-)installed. -/
theorem tool_step (st : Server) (hT : st.transport = false) (hc : toolsCompat st)
    (r : ToolReg) (hfresh : dictGet r.name st.registeredTools = none) :
    Server.tool st r.name r.description r.paramsSchema r.callback = (.ok (),
      { st with
        registeredTools := st.registeredTools ++ [(r.name, r.entry)]
        capabilities := { st.capabilities with tools := some () }
        requestHandlers :=
          dictSet "tools/call" .toolsCallH
            (dictSet "tools/list" .toolsListH st.requestHandlers) }) := by
  obtain ⟨h1, h2⟩ := hc
  have hs := dictSet_of_get_none (α := RegisteredTool)
    ⟨r.description, r.paramsSchema, r.callback⟩ hfresh
  rcases h1 with h1 | h1 <;> rcases h2 with h2 | h2 <;>
    simp [Server.tool, hfresh, Server.setToolRequestHandlers,
      Server.assertCanSetRequestHandler, Server.registerCapabilities, hT,
      Server.setRequestHandler, h1, h2, hs, ToolReg.entry,
      mergeCapabilities_toolsDecl]

/-- One successful fixed-resource registration step, in full. -/
theorem resource_step (st : Server) (hT : st.transport = false)
    (hc : resourcesCompat st) (name uri : String) (md : Option Kvs)
    (rcb : ReadResourceCallback)
    (hfresh : dictGet uri st.registeredResources = none) :
    Server.registerResource st name uri md rcb = (.ok (),
      { st with
        registeredResources := st.registeredResources ++ [(uri, ⟨name, md, rcb⟩)]
        capabilities := { st.capabilities with resources := some () }
        requestHandlers :=
          dictSet "resources/read" .resourcesReadH
            (dictSet "resources/templates/list" .resourcesTemplatesListH
              (dictSet "resources/list" .resourcesListH st.requestHandlers)) }) := by
  obtain ⟨h1, h2, h3⟩ := hc
  have hs := dictSet_of_get_none (α := RegisteredResource) ⟨name, md, rcb⟩ hfresh
  rcases h1 with h1 | h1 <;> rcases h2 with h2 | h2 <;> rcases h3 with h3 | h3 <;>
    simp [Server.registerResource, hfresh, Server.setResourceRequestHandlers,
      Server.assertCanSetRequestHandler, Server.registerCapabilities, hT,
      Server.setRequestHandler, h1, h2, h3, hs, mergeCapabilities_resourcesDecl]

/-- One successful template registration step, in full. -/
theorem template_step (st : Server) (hT : st.transport = false)
    (hc : resourcesCompat st) (name : String) (ut : UriTemplate)
    (md : Option Kvs) (lcb : Option ListResourcesCallback)
    (rcb : ReadResourceCallback)
    (hfresh : dictGet name st.registeredResourceTemplates = none) :
    Server.registerResourceTemplate st name ut md lcb rcb = (.ok (),
      { st with
        registeredResourceTemplates :=
          st.registeredResourceTemplates ++ [(name, ⟨ut, md, lcb, rcb⟩)]
        capabilities := { st.capabilities with resources := some () }
        requestHandlers :=
          dictSet "resources/read" .resourcesReadH
            (dictSet "resources/templates/list" .resourcesTemplatesListH
              (dictSet "resources/list" .resourcesListH st.requestHandlers)) }) := by
  obtain ⟨h1, h2, h3⟩ := hc
  have hs := dictSet_of_get_none (α := RegisteredResourceTemplate) ⟨ut, md, lcb, rcb⟩ hfresh
  rcases h1 with h1 | h1 <;> rcases h2 with h2 | h2 <;> rcases h3 with h3 | h3 <;>
    simp [Server.registerResourceTemplate, hfresh, Server.setResourceRequestHandlers,
      Server.assertCanSetRequestHandler, Server.registerCapabilities, hT,
      Server.setRequestHandler, h1, h2, h3, hs, mergeCapabilities_resourcesDecl]

theorem capabilities_update_tools_self (c : ServerCapabilities)
    (h : c.tools = some ()) :
    ({ c with tools := some () } : ServerCapabilities) = c := by
  cases c
  simp_all

theorem capabilities_update_resources_self (c : ServerCapabilities)
    (h : c.resources = some ()) :
    ({ c with resources := some () } : ServerCapabilities) = c := by
  cases c
  simp_all

/-- From a state with the tool handlers installed, a run of fresh,
pairwise-distinct tool registrations returns only successes and changes
nothing but the tool registry, which grows by exactly the new entries. -/
theorem registerToolsSeq_stable (rs : List ToolReg) :
    ∀ st : Server, st.transport = false → toolsInstalled st →
      (∀ r ∈ rs, dictGet r.name st.registeredTools = none) →
      rs.Pairwise (fun a b => a.name ≠ b.name) →
      (registerToolsSeq st rs).1 = rs.map (fun _ => .ok ()) ∧
      (registerToolsSeq st rs).2 =
        { st with registeredTools :=
            st.registeredTools ++ rs.map fun r => (r.name, r.entry) } := by
  induction rs with
  | nil =>
    intro st hT hi hf hp
    exact ⟨rfl, by simp [registerToolsSeq, registerResourcesSeq]⟩
  | cons r rs ih =>
    intro st hT hi hf hp
    rw [List.pairwise_cons] at hp
    obtain ⟨hphead, hptail⟩ := hp
    have hq : dictSet "tools/call" HandlerTag.toolsCallH
        (dictSet "tools/list" HandlerTag.toolsListH st.requestHandlers) =
        st.requestHandlers := by
      rw [dictSet_of_get_some hi.1, dictSet_of_get_some hi.2.1]
    have hcap := capabilities_update_tools_self st.capabilities hi.2.2
    have hstep := tool_step st hT ⟨Or.inr hi.1, Or.inr hi.2.1⟩ r
      (hf r (List.mem_cons_self r rs))
    rw [hq, hcap] at hstep
    have hfresh1 : ∀ r' ∈ rs, dictGet r'.name
        (st.registeredTools ++ [(r.name, r.entry)]) = none := by
      intro r' hr'
      rw [dictGet_append, hf r' (List.mem_cons_of_mem r hr')]
      have hne : r.name ≠ r'.name := hphead r' hr'
      simp [dictGet, hne]
    have hrec := ih { st with
        registeredTools := st.registeredTools ++ [(r.name, r.entry)]
        capabilities := st.capabilities
        requestHandlers := st.requestHandlers }
      hT hi hfresh1 hptail
    refine ⟨?_, ?_⟩
    · simp only [registerToolsSeq, hstep, hrec.1, List.map_cons]
    · simp only [registerToolsSeq, hstep, hrec.2, List.map_cons]
      simp [List.append_assoc]

/-- One successful resource-kind step, uniformly over the two kinds. -/
theorem resourceReg_step (st : Server) (hT : st.transport = false)
    (hc : resourcesCompat st) (r : ResourceReg) (hfresh : r.freshIn st) :
    applyResourceReg st r = (.ok (),
      { st with
        registeredResources := st.registeredResources ++ r.fixedEntry?.toList
        registeredResourceTemplates :=
          st.registeredResourceTemplates ++ r.templateEntry?.toList
        capabilities := { st.capabilities with resources := some () }
        requestHandlers :=
          dictSet "resources/read" .resourcesReadH
            (dictSet "resources/templates/list" .resourcesTemplatesListH
              (dictSet "resources/list" .resourcesListH st.requestHandlers)) }) := by
  cases r with
  | fixed name uri md rcb =>
    have h := resource_step st hT hc name uri md rcb hfresh
    simpa [ResourceReg.fixedEntry?, ResourceReg.templateEntry?] using h
  | template name ut md lcb rcb =>
    have h := template_step st hT hc name ut md lcb rcb hfresh
    simpa [ResourceReg.fixedEntry?, ResourceReg.templateEntry?] using h

/-- From a state with the resource handlers installed, a run of fresh,
pairwise-distinct resource-kind registrations returns only successes and
changes nothing but the two resource registries. -/
theorem registerResourcesSeq_stable (rs : List ResourceReg) :
    ∀ st : Server, st.transport = false → resourcesInstalled st →
      (∀ r ∈ rs, r.freshIn st) →
      rs.Pairwise (fun a b => a.key ≠ b.key) →
      (registerResourcesSeq st rs).1 = rs.map (fun _ => .ok ()) ∧
      (registerResourcesSeq st rs).2 = { st with
        registeredResources :=
          st.registeredResources ++ rs.filterMap ResourceReg.fixedEntry?
        registeredResourceTemplates :=
          st.registeredResourceTemplates ++ rs.filterMap ResourceReg.templateEntry? } := by
  induction rs with
  | nil =>
    intro st hT hi hf hp
    exact ⟨rfl, by simp [registerToolsSeq, registerResourcesSeq]⟩
  | cons r rs ih =>
    intro st hT hi hf hp
    rw [List.pairwise_cons] at hp
    obtain ⟨hphead, hptail⟩ := hp
    have hq : dictSet "resources/read" HandlerTag.resourcesReadH
        (dictSet "resources/templates/list" HandlerTag.resourcesTemplatesListH
          (dictSet "resources/list" HandlerTag.resourcesListH st.requestHandlers)) =
        st.requestHandlers := by
      rw [dictSet_of_get_some hi.1, dictSet_of_get_some hi.2.1,
        dictSet_of_get_some hi.2.2.1]
    have hcap := capabilities_update_resources_self st.capabilities hi.2.2.2
    have hstep := resourceReg_step st hT ⟨Or.inr hi.1, Or.inr hi.2.1, Or.inr hi.2.2.1⟩
      r (hf r (List.mem_cons_self r rs))
    rw [hq, hcap] at hstep
    have hfresh1 : ∀ r' ∈ rs, r'.freshIn { st with
        registeredResources := st.registeredResources ++ r.fixedEntry?.toList
        registeredResourceTemplates :=
          st.registeredResourceTemplates ++ r.templateEntry?.toList
        capabilities := st.capabilities
        requestHandlers := st.requestHandlers } := by
      intro r' hr'
      have hne : r.key ≠ r'.key := hphead r' hr'
      have hf' := hf r' (List.mem_cons_of_mem r hr')
      cases r' with
      | fixed name' uri' md' rcb' =>
        show dictGet uri' (st.registeredResources ++ r.fixedEntry?.toList) = none
        rw [dictGet_append, hf']
        cases r with
        | fixed name uri md rcb =>
          have hne' : uri ≠ uri' := by
            intro h
            exact hne (by simp [ResourceReg.key, h])
          simp [ResourceReg.fixedEntry?, dictGet, hne']
        | template name ut md lcb rcb =>
          simp [ResourceReg.fixedEntry?, dictGet]
      | template name' ut' md' lcb' rcb' =>
        show dictGet name'
          (st.registeredResourceTemplates ++ r.templateEntry?.toList) = none
        rw [dictGet_append, hf']
        cases r with
        | fixed name uri md rcb =>
          simp [ResourceReg.templateEntry?, dictGet]
        | template name ut md lcb rcb =>
          have hne' : name ≠ name' := by
            intro h
            exact hne (by simp [ResourceReg.key, h])
          simp [ResourceReg.templateEntry?, dictGet, hne']
    have hrec := ih { st with
        registeredResources := st.registeredResources ++ r.fixedEntry?.toList
        registeredResourceTemplates :=
          st.registeredResourceTemplates ++ r.templateEntry?.toList
        capabilities := st.capabilities
        requestHandlers := st.requestHandlers }
      hT hi hfresh1 hptail
    refine ⟨?_, ?_⟩
    · simp only [registerResourcesSeq, hstep, hrec.1, List.map_cons]
    · simp only [registerResourcesSeq, hstep, hrec.2, List.map_cons]
      cases r <;>
        simp [ResourceReg.fixedEntry?, ResourceReg.templateEntry?, List.append_assoc]

/-- C1: starting from any state whose handler-map slots are free or already
owned by the registry and with no transport attached, a sequence of tool
registrations with pairwise-distinct fresh names succeeds in every call
(after the first as the claim states, and the first included); once a first
registration has installed the registry, the installed-handler state and the
declared capabilities of the final state equal those right after the first
registration: repeated installation is idempotent. The same holds for
mixed fixed-resource and resource-template registrations with respect to the
resources/list, resources/templates/list and resources/read handlers. -/
theorem registration_installation_idempotent :
    (∀ (st : Server) (regs : List ToolReg),
      st.transport = false → toolsCompat st →
      (∀ r ∈ regs, dictGet r.name st.registeredTools = none) →
      regs.Pairwise (fun a b => a.name ≠ b.name) →
      (∀ e ∈ (registerToolsSeq st regs).1, e = .ok ()) ∧
      (∀ r rs, regs = r :: rs →
        toolsInstalled (registerToolsSeq st regs).2 ∧
        (registerToolsSeq st regs).2.requestHandlers =
          (Server.tool st r.name r.description r.paramsSchema r.callback).2.requestHandlers ∧
        (registerToolsSeq st regs).2.capabilities =
          (Server.tool st r.name r.description r.paramsSchema r.callback).2.capabilities)) ∧
    (∀ (st : Server) (regs : List ResourceReg),
      st.transport = false → resourcesCompat st →
      (∀ r ∈ regs, r.freshIn st) →
      regs.Pairwise (fun a b => a.key ≠ b.key) →
      (∀ e ∈ (registerResourcesSeq st regs).1, e = .ok ()) ∧
      (∀ r rs, regs = r :: rs →
        resourcesInstalled (registerResourcesSeq st regs).2 ∧
        (registerResourcesSeq st regs).2.requestHandlers =
          (applyResourceReg st r).2.requestHandlers ∧
        (registerResourcesSeq st regs).2.capabilities =
          (applyResourceReg st r).2.capabilities)) := by
  constructor
  · intro st regs hT hc hf hp
    cases regs with
    | nil =>
      refine ⟨fun e he => absurd he (by simp [registerToolsSeq]), fun r rs h => by cases h⟩
    | cons r rs =>
      rw [List.pairwise_cons] at hp
      obtain ⟨hphead, hptail⟩ := hp
      have hstep := tool_step st hT hc r (hf r (List.mem_cons_self r rs))
      have hi1 : toolsInstalled { st with
          registeredTools := st.registeredTools ++ [(r.name, r.entry)]
          capabilities := { st.capabilities with tools := some () }
          requestHandlers :=
            dictSet "tools/call" .toolsCallH
              (dictSet "tools/list" .toolsListH st.requestHandlers) } := by
        refine ⟨?_, ?_, rfl⟩
        · show dictGet "tools/list" (dictSet "tools/call" HandlerTag.toolsCallH
            (dictSet "tools/list" HandlerTag.toolsListH st.requestHandlers)) = _
          rw [dictGet_dictSet_ne (by decide), dictGet_dictSet_self]
        · show dictGet "tools/call" (dictSet "tools/call" HandlerTag.toolsCallH
            (dictSet "tools/list" HandlerTag.toolsListH st.requestHandlers)) = _
          rw [dictGet_dictSet_self]
      have hfresh1 : ∀ r' ∈ rs, dictGet r'.name
          (st.registeredTools ++ [(r.name, r.entry)]) = none := by
        intro r' hr'
        rw [dictGet_append, hf r' (List.mem_cons_of_mem r hr')]
        have hne : r.name ≠ r'.name := hphead r' hr'
        simp [dictGet, hne]
      have hstable := registerToolsSeq_stable rs { st with
          registeredTools := st.registeredTools ++ [(r.name, r.entry)]
          capabilities := { st.capabilities with tools := some () }
          requestHandlers :=
            dictSet "tools/call" .toolsCallH
              (dictSet "tools/list" .toolsListH st.requestHandlers) }
        hT hi1 hfresh1 hptail
      constructor
      · intro e he
        simp only [registerToolsSeq, hstep, hstable.1] at he
        rcases List.mem_cons.mp he with h | h
        · exact h
        · rcases List.mem_map.mp h with ⟨_, _, h'⟩
          exact h'.symm
      · intro r' rs' heq
        injection heq with h1 h2
        subst h1
        subst h2
        refine ⟨?_, ?_, ?_⟩ <;>
          simp only [registerToolsSeq, hstep, hstable.2]
        exact hi1
  · intro st regs hT hc hf hp
    cases regs with
    | nil =>
      refine ⟨fun e he => absurd he (by simp [registerResourcesSeq]), fun r rs h => by cases h⟩
    | cons r rs =>
      rw [List.pairwise_cons] at hp
      obtain ⟨hphead, hptail⟩ := hp
      have hstep := resourceReg_step st hT hc r (hf r (List.mem_cons_self r rs))
      have hi1 : resourcesInstalled { st with
          registeredResources := st.registeredResources ++ r.fixedEntry?.toList
          registeredResourceTemplates :=
            st.registeredResourceTemplates ++ r.templateEntry?.toList
          capabilities := { st.capabilities with resources := some () }
          requestHandlers :=
            dictSet "resources/read" .resourcesReadH
              (dictSet "resources/templates/list" .resourcesTemplatesListH
                (dictSet "resources/list" .resourcesListH st.requestHandlers)) } := by
        refine ⟨?_, ?_, ?_, rfl⟩
        · show dictGet "resources/list" (dictSet "resources/read" HandlerTag.resourcesReadH
            (dictSet "resources/templates/list" HandlerTag.resourcesTemplatesListH
              (dictSet "resources/list" HandlerTag.resourcesListH st.requestHandlers))) = _
          rw [dictGet_dictSet_ne (by decide), dictGet_dictSet_ne (by decide),
            dictGet_dictSet_self]
        · show dictGet "resources/templates/list"
            (dictSet "resources/read" HandlerTag.resourcesReadH
              (dictSet "resources/templates/list" HandlerTag.resourcesTemplatesListH
                (dictSet "resources/list" HandlerTag.resourcesListH st.requestHandlers))) = _
          rw [dictGet_dictSet_ne (by decide), dictGet_dictSet_self]
        · show dictGet "resources/read" (dictSet "resources/read" HandlerTag.resourcesReadH
            (dictSet "resources/templates/list" HandlerTag.resourcesTemplatesListH
              (dictSet "resources/list" HandlerTag.resourcesListH st.requestHandlers))) = _
          rw [dictGet_dictSet_self]
      have hfresh1 : ∀ r' ∈ rs, r'.freshIn { st with
          registeredResources := st.registeredResources ++ r.fixedEntry?.toList
          registeredResourceTemplates :=
            st.registeredResourceTemplates ++ r.templateEntry?.toList
          capabilities := { st.capabilities with resources := some () }
          requestHandlers :=
            dictSet "resources/read" .resourcesReadH
              (dictSet "resources/templates/list" .resourcesTemplatesListH
                (dictSet "resources/list" .resourcesListH st.requestHandlers)) } := by
        intro r' hr'
        have hne : r.key ≠ r'.key := hphead r' hr'
        have hf' := hf r' (List.mem_cons_of_mem r hr')
        cases r' with
        | fixed name' uri' md' rcb' =>
          show dictGet uri' (st.registeredResources ++ r.fixedEntry?.toList) = none
          rw [dictGet_append, hf']
          cases r with
          | fixed name uri md rcb =>
            have hne' : uri ≠ uri' := by
              intro h
              exact hne (by simp [ResourceReg.key, h])
            simp [ResourceReg.fixedEntry?, dictGet, hne']
          | template name ut md lcb rcb =>
            simp [ResourceReg.fixedEntry?, dictGet]
        | template name' ut' md' lcb' rcb' =>
          show dictGet name'
            (st.registeredResourceTemplates ++ r.templateEntry?.toList) = none
          rw [dictGet_append, hf']
          cases r with
          | fixed name uri md rcb =>
            simp [ResourceReg.templateEntry?, dictGet]
          | template name ut md lcb rcb =>
            have hne' : name ≠ name' := by
              intro h
              exact hne (by simp [ResourceReg.key, h])
            simp [ResourceReg.templateEntry?, dictGet, hne']
      have hstable := registerResourcesSeq_stable rs { st with
          registeredResources := st.registeredResources ++ r.fixedEntry?.toList
          registeredResourceTemplates :=
            st.registeredResourceTemplates ++ r.templateEntry?.toList
          capabilities := { st.capabilities with resources := some () }
          requestHandlers :=
            dictSet "resources/read" .resourcesReadH
              (dictSet "resources/templates/list" .resourcesTemplatesListH
                (dictSet "resources/list" .resourcesListH st.requestHandlers)) }
        hT hi1 hfresh1 hptail
      constructor
      · intro e he
        simp only [registerResourcesSeq, hstep, hstable.1] at he
        rcases List.mem_cons.mp he with h | h
        · exact h
        · rcases List.mem_map.mp h with ⟨_, _, h'⟩
          exact h'.symm
      · intro r' rs' heq
        injection heq with h1 h2
        subst h1
        subst h2
        refine ⟨?_, ?_, ?_⟩ <;>
          simp only [registerResourcesSeq, hstep, hstable.2]
        exact hi1

/-- Witness for C1: two tool registrations and a mixed fixed-resource and
template registration pair, each run from the bare server; every call
succeeds, and the final handler map and capabilities equal those right
after the first call of the kind. -/
theorem registration_installation_idempotent_witness :
    (∀ e ∈ (registerToolsSeq serverBare
        [⟨"a", none, none, okCallback⟩, ⟨"b", none, none, boomCallback⟩]).1,
      e = .ok ()) ∧
    (registerToolsSeq serverBare
        [⟨"a", none, none, okCallback⟩, ⟨"b", none, none, boomCallback⟩]).2.requestHandlers =
      (Server.tool serverBare "a" none none okCallback).2.requestHandlers ∧
    (registerToolsSeq serverBare
        [⟨"a", none, none, okCallback⟩, ⟨"b", none, none, boomCallback⟩]).2.capabilities =
      (Server.tool serverBare "a" none none okCallback).2.capabilities ∧
    (∀ e ∈ (registerResourcesSeq serverBare
        [.fixed "g" "mem://g" none greetingRead,
         .template "tpl" greetTemplate none none greetingRead]).1,
      e = .ok ()) ∧
    (registerResourcesSeq serverBare
        [.fixed "g" "mem://g" none greetingRead,
         .template "tpl" greetTemplate none none greetingRead]).2.requestHandlers =
      (Server.registerResource serverBare "g" "mem://g" none greetingRead).2.requestHandlers := by
  have htools := (registration_installation_idempotent.1 serverBare
    [⟨"a", none, none, okCallback⟩, ⟨"b", none, none, boomCallback⟩]
    rfl ⟨Or.inl rfl, Or.inl rfl⟩ (fun r _ => rfl)
    (by
      refine List.Pairwise.cons ?_ (List.Pairwise.cons ?_ List.Pairwise.nil)
      · intro b hb
        rcases List.mem_cons.mp hb with h | h
        · rw [h]
          decide
        · cases h
      · intro b hb
        cases hb))
  have hres := (registration_installation_idempotent.2 serverBare
    [.fixed "g" "mem://g" none greetingRead,
     .template "tpl" greetTemplate none none greetingRead]
    rfl ⟨Or.inl rfl, Or.inl rfl, Or.inl rfl⟩
    (by
      intro r hr
      rcases List.mem_cons.mp hr with h | h
      · rw [h]
        exact rfl
      · rcases List.mem_cons.mp h with h' | h'
        · rw [h']
          exact rfl
        · cases h')
    (by
      refine List.Pairwise.cons ?_ (List.Pairwise.cons ?_ List.Pairwise.nil)
      · intro b hb
        rcases List.mem_cons.mp hb with h | h
        · rw [h]
          decide
        · cases h
      · intro b hb
        cases hb))
  obtain ⟨ht1, ht2⟩ := htools
  obtain ⟨hr1, hr2⟩ := hres
  have ht3 := ht2 ⟨"a", none, none, okCallback⟩ [⟨"b", none, none, boomCallback⟩] rfl
  have hr3 := hr2 (.fixed "g" "mem://g" none greetingRead)
    [.template "tpl" greetTemplate none none greetingRead] rfl
  exact ⟨ht1, ht3.2.1, ht3.2.2, hr1, hr3.2.1⟩

end MCP
